import Mathlib

/-!
Verification of the ffcgi-client FastCGI client library.

The development shallowly embeds the Go sources:
  * the wire codec (record header framing, padding, stream-framing writer,
    name-value pair length encoding),
  * the request writer of the per-request client,
  * the CGI response-header parser of ResponsePipe.writeResponse together
    with the HTTP handler bridge,
  * the client-pool consumer path ClientPool.CreateClient,
  * the sequential prefix of client.Do.

Bytes are modelled as Nat (every byte produced by the codec is < 256);
machine-integer conversions are rendered with explicit `% 2 ^ w`
arithmetic, and the Go bit operations on lengths are rendered by their
arithmetic equivalents on the uint32 range (noted at each definition).
-/

/-! ## Codec: record header and conn.writeRecord -/

/-- maximum record body size (Go constant `maxWrite = 65535`). -/
def maxWrite : Nat := 65535

/-- maximum padding length (Go constant `maxPad = 255`). -/
def maxPad : Nat := 255

/-- the padding source slab `var pad [maxPad]byte`; Go zero-initializes it. -/
def pad : List Nat := List.replicate maxPad 0

/-- FastCGI record header (Go struct `header`). -/
structure header where
  Version : Nat
  «Type» : Nat
  ID : Nat
  ContentLength : Nat
  PaddingLength : Nat
  Reserved : Nat
  deriving DecidableEq

/-- `header.init` of the source: Version 1, the given type and request id,
`ContentLength = uint16(contentLength)`, and
`PaddingLength = uint8(-contentLength & 7)`; on a nonnegative int the Go
expression `-contentLength & 7` is `(-contentLength) mod 8`, rendered here
with Int.emod (whose result lies in `[0, 8)`). -/
def header.init (recType : Nat) (reqID : Nat) (contentLength : Nat) : header :=
  { Version := 1
    «Type» := recType
    ID := reqID
    ContentLength := contentLength % 65536
    PaddingLength := ((-(contentLength : Int)) % 8).toNat
    Reserved := 0 }

/-- big-endian serialization of the 8-byte header, as produced by
`binary.Write(&c.buf, binary.BigEndian, c.h)`. -/
def headerBytes (h : header) : List Nat :=
  [h.Version % 256, h.«Type» % 256,
   h.ID / 256 % 256, h.ID % 256,
   h.ContentLength / 256 % 256, h.ContentLength % 256,
   h.PaddingLength % 256, h.Reserved % 256]

/-- `conn.writeRecord`: serialize the header built by `header.init`, then the
payload, then `pad[:PaddingLength]`; returns the bytes handed to the
underlying stream in one locked write. -/
def conn.writeRecord (recType : Nat) (reqID : Nat) (b : List Nat) : List Nat :=
  let h := header.init recType reqID b.length
  headerBytes h ++ b ++ pad.take h.PaddingLength

/-! ## Codec: the stream-framing writer -/

/-- `streamWriter.Write`: chop the input into records of at most `maxWrite`
content bytes, emitting them in order; the first component lists the record
contents emitted, the second is the accumulated byte count `nn` returned. -/
def streamWriter.Write (p : List Nat) : List (List Nat) × Nat :=
  if h : 0 < p.length then
    let n := min p.length maxWrite
    let r := streamWriter.Write (p.drop n)
    (p.take n :: r.1, n + r.2)
  else ([], 0)
termination_by p.length
decreasing_by
  simp only [List.length_drop]
  have hm : 0 < min p.length maxWrite := by
    simp only [maxWrite]
    omega
  omega

/-- `streamWriter.Close`: send one empty record of the stream's type to close
the stream (`w.c.writeRecord(w.recType, w.reqID, nil)`). -/
def streamWriter.Close (recType : Nat) (reqID : Nat) : List Nat :=
  conn.writeRecord recType reqID []

lemma streamWriter.Write_nil : streamWriter.Write [] = ([], 0) := by
  rw [streamWriter.Write]
  simp

lemma streamWriter.Write_pos (p : List Nat) (h : 0 < p.length) :
    streamWriter.Write p =
      ((p.take (min p.length maxWrite)) ::
          (streamWriter.Write (p.drop (min p.length maxWrite))).1,
        min p.length maxWrite +
          (streamWriter.Write (p.drop (min p.length maxWrite))).2) := by
  rw [streamWriter.Write]
  simp [h]

/-- combined behaviour of the stream-chunking loop, proved by strong
induction on the input length. -/
lemma streamWriter.Write_spec :
    ∀ N p, p.length ≤ N →
      ((streamWriter.Write p).1.flatten = p ∧
       (streamWriter.Write p).2 = p.length ∧
       ∀ c ∈ (streamWriter.Write p).1, c ≠ [] ∧ c.length ≤ maxWrite) := by
  intro N
  induction N with
  | zero =>
    intro p hp
    have : p = [] := by
      cases p with
      | nil => rfl
      | cons a t => simp at hp
    subst this
    simp [streamWriter.Write_nil]
  | succ N ih =>
    intro p hp
    by_cases h : 0 < p.length
    · have hm : 0 < min p.length maxWrite := by
        simp only [maxWrite]; omega
      have hmle : min p.length maxWrite ≤ p.length := Nat.min_le_left _ _
      have hdrop : (p.drop (min p.length maxWrite)).length ≤ N := by
        simp only [List.length_drop]
        have h2 : p.length ≤ N + 1 := hp
        omega
      obtain ⟨hj, hc, hb⟩ := ih (p.drop (min p.length maxWrite)) hdrop
      rw [streamWriter.Write_pos p h]
      refine ⟨?_, ?_, ?_⟩
      · simp [hj]
      · show min p.length maxWrite +
            (streamWriter.Write (p.drop (min p.length maxWrite))).2 = p.length
        rw [hc, List.length_drop]
        omega
      · intro c hcmem
        rcases List.mem_cons.mp hcmem with hhd | htl
        · subst hhd
          have hlen : (p.take (min p.length maxWrite)).length =
              min p.length maxWrite := by
            rw [List.length_take]
            omega
          constructor
          · intro hnil
            rw [hnil] at hlen
            simp at hlen
            omega
          · rw [hlen]
            omega
        · exact hb c htl
    · have : p = [] := by
        cases p with
        | nil => rfl
        | cons a t => simp at h
      subst this
      simp [streamWriter.Write_nil]

lemma streamWriter.Write_join (p : List Nat) :
    (streamWriter.Write p).1.flatten = p :=
  (streamWriter.Write_spec p.length p le_rfl).1

lemma streamWriter.Write_count (p : List Nat) :
    (streamWriter.Write p).2 = p.length :=
  (streamWriter.Write_spec p.length p le_rfl).2.1

lemma streamWriter.Write_chunk_bounds (p : List Nat) :
    ∀ c ∈ (streamWriter.Write p).1, c ≠ [] ∧ c.length ≤ maxWrite :=
  (streamWriter.Write_spec p.length p le_rfl).2.2

/-! ## Codec: name-value pair length encoding -/

/-- big-endian serialization of a uint32, `binary.BigEndian.PutUint32`. -/
def putUint32BE (v : Nat) : List Nat :=
  [v / 2 ^ 24 % 256, v / 2 ^ 16 % 256, v / 2 ^ 8 % 256, v % 256]

/-- `binary.BigEndian.Uint32`: read the first four bytes big-endian (the
caller guarantees at least four bytes are present). -/
def uint32BE : List Nat → Nat
  | b0 :: b1 :: b2 :: b3 :: _ => b0 * 2 ^ 24 + b1 * 2 ^ 16 + b2 * 2 ^ 8 + b3
  | _ => 0

/-- `encodeSize`: lengths up to 127 are a single byte; larger lengths are a
4-byte big-endian uint32 with the top bit set.  The Go statement
`size |= 1 << 31` on a uint32 is rendered arithmetically as
`2 ^ 31 + size % 2 ^ 31` (set bit 31, keep bits 0-30).  The Go function
fills a caller buffer and returns the byte count; the model returns the
bytes written together with that count. -/
def encodeSize (size : Nat) : List Nat × Nat :=
  if 127 < size then
    (putUint32BE (2 ^ 31 + size % 2 ^ 31), 4)
  else ([size], 1)

/-- `readSize`: returns the decoded length and the number of bytes it
occupied.  The Go test `size&(1<<7) != 0` on the first byte is rendered as
`128 ≤ b0` (the input bytes are below 256), and the mask
`size &^= 1 << 31` on a uint32 as `% 2 ^ 31` (clear bit 31). -/
def readSize (s : List Nat) : Nat × Nat :=
  match s with
  | [] => (0, 0)
  | b0 :: _ =>
    if 128 ≤ b0 then
      if s.length < 4 then (0, 0)
      else (uint32BE s % 2 ^ 31, 4)
    else (b0, 1)

/-- `readString`: take `size` bytes from the front, or the empty string when
fewer than `size` bytes are available. -/
def readString (s : List Nat) (size : Nat) : List Nat :=
  if s.length < size then [] else s.take size

/-- the bytes `conn.writePairs` produces for one pair: encoded name length,
encoded value length, name bytes, value bytes. -/
def encPair (k v : List Nat) : List Nat :=
  (encodeSize k.length).1 ++ (encodeSize v.length).1 ++ k ++ v

/-- the full byte stream `conn.writePairs` feeds into the buffered stream
writer: the per-pair encodings in iteration order. -/
def writePairsBytes : List (List Nat × List Nat) → List Nat
  | [] => []
  | kv :: rest => encPair kv.1 kv.2 ++ writePairsBytes rest

/-- the record contents `conn.writePairs` emits: the buffered writer
coalesces the per-pair writes and flushes only full `maxWrite`-byte
buffers, so the emitted records are exactly the `maxWrite`-chunking of the
concatenated pair encoding, followed by the closing empty record from
`w.Close()`. -/
def writePairsRecords (pairs : List (List Nat × List Nat)) : List (List Nat) :=
  (streamWriter.Write (writePairsBytes pairs)).1 ++ [[]]

/-- pair-stream decoder built from `readSize` and `readString`: read the
name length, the value length, then the name and value bytes, repeatedly;
a failed length read (`readSize` returning byte count 0) stops. -/
def decodePairs (s : List Nat) : List (List Nat × List Nat) :=
  if hs : s = [] then []
  else if h1 : (readSize s).2 = 0 then []
  else
    let s1 := s.drop (readSize s).2
    let s2 := s1.drop (readSize s1).2
    let k := readString s2 (readSize s).1
    let s3 := s2.drop (readSize s).1
    let v := readString s3 (readSize s1).1
    (k, v) :: decodePairs (s3.drop (readSize s1).1)
termination_by s.length
decreasing_by
  simp only [List.length_drop]
  have h0 : 0 < s.length := List.length_pos.mpr hs
  omega

lemma encodeSize_length (sz : Nat) :
    (encodeSize sz).1.length = (encodeSize sz).2 := by
  by_cases h : 127 < sz <;> simp [encodeSize, h, putUint32BE]

lemma encodeSize_count_pos (sz : Nat) : 0 < (encodeSize sz).2 := by
  by_cases h : 127 < sz <;> simp [encodeSize, h]

lemma encodeSize_ne_nil (sz : Nat) : (encodeSize sz).1 ≠ [] := by
  by_cases h : 127 < sz <;> simp [encodeSize, h, putUint32BE]

/-- decoding an encoded length recovers it, whatever bytes follow. -/
lemma readSize_encode (sz : Nat) (hsz : sz < 2 ^ 31) (rest : List Nat) :
    readSize ((encodeSize sz).1 ++ rest) = (sz, (encodeSize sz).2) := by
  by_cases h : 127 < sz
  · have hm : sz % 2 ^ 31 = sz := Nat.mod_eq_of_lt hsz
    have hb0 : 128 ≤ (2 ^ 31 + sz) / 2 ^ 24 % 256 := by omega
    simp only [encodeSize, if_pos h, hm, putUint32BE, List.cons_append,
      List.nil_append, readSize, uint32BE]
    rw [if_pos hb0, if_neg (by simp [List.length_cons])]
    refine Prod.ext ?_ rfl
    simp only
    omega
  · simp only [encodeSize, if_neg h, List.cons_append, List.nil_append,
      readSize]
    rw [if_neg (by omega)]

/-- one decoding step peels one encoded pair off the stream. -/
lemma decodePairs_step (k v rest : List Nat)
    (hk : k.length < 2 ^ 31) (hv : v.length < 2 ^ 31) :
    decodePairs (encPair k v ++ rest) = (k, v) :: decodePairs rest := by
  have hkenc := readSize_encode k.length hk
    ((encodeSize v.length).1 ++ (k ++ (v ++ rest)))
  have hvenc := readSize_encode v.length hv (k ++ (v ++ rest))
  have hs : encPair k v ++ rest =
      (encodeSize k.length).1 ++
        ((encodeSize v.length).1 ++ (k ++ (v ++ rest))) := by
    simp [encPair, List.append_assoc]
  have hne : encPair k v ++ rest ≠ [] := by
    rw [hs]
    simp [encodeSize_ne_nil]
  rw [decodePairs, dif_neg hne]
  rw [hs]
  have hcount : ¬ ((readSize ((encodeSize k.length).1 ++
      ((encodeSize v.length).1 ++ (k ++ (v ++ rest))))).2 = 0) := by
    rw [hkenc]
    have := encodeSize_count_pos k.length
    omega
  rw [dif_neg hcount]
  simp only [hkenc]
  rw [← encodeSize_length k.length, List.drop_left]
  simp only [hvenc]
  rw [← encodeSize_length v.length, List.drop_left]
  have htk : readString (k ++ (v ++ rest)) k.length = k := by
    simp only [readString]
    rw [if_neg (by simp [List.length_append])]
    exact List.take_left k (v ++ rest)
  have hdk : (k ++ (v ++ rest)).drop k.length = v ++ rest :=
    List.drop_left k (v ++ rest)
  rw [htk, hdk]
  have htv : readString (v ++ rest) v.length = v := by
    simp only [readString]
    rw [if_neg (by simp [List.length_append])]
    exact List.take_left v rest
  have hdv : (v ++ rest).drop v.length = rest := List.drop_left v rest
  rw [htv, hdv]

/-- decoding the concatenated pair encoding recovers the pair list. -/
lemma decodePairs_writePairsBytes (pairs : List (List Nat × List Nat))
    (h : ∀ kv ∈ pairs, kv.1.length < 2 ^ 31 ∧ kv.2.length < 2 ^ 31) :
    decodePairs (writePairsBytes pairs) = pairs := by
  induction pairs with
  | nil => rw [writePairsBytes, decodePairs]; simp
  | cons kv rest ih =>
    have hkv := h kv (List.mem_cons_self kv rest)
    rw [writePairsBytes, decodePairs_step kv.1 kv.2 _ hkv.1 hkv.2]
    rw [ih (fun x hx => h x (List.mem_cons_of_mem kv hx))]

/-! ## Record types and the request writer -/

/-- record type tags (Go `recType` constants, iota + 1). -/
def typeBeginRequest : Nat := 1

def typeAbortRequest : Nat := 2

def typeEndRequest : Nat := 3

def typeParams : Nat := 4

def typeStdin : Nat := 5

def typeStdout : Nat := 6

def typeStderr : Nat := 7

/-- the Responder role (Go `roleResponder`, iota + 1). -/
def roleResponder : Nat := 1

/-- the 8-byte BeginRequest body built by `conn.writeBeginRequest`:
`[8]byte{byte(role >> 8), byte(role), flags}` with five zero bytes of
remainder. -/
def beginRequestBody (role : Nat) (flags : Nat) : List Nat :=
  [role / 256 % 256, role % 256, flags % 256, 0, 0, 0, 0, 0]

/-- in-memory request (Go struct `Request`); the raw `*http.Request` is
reduced to the presence and bytes of its body, which is all the write path
consumes, and `Stdin = none` models a nil `io.ReadCloser`. -/
structure Request where
  Role : Nat
  Params : List (List Nat × List Nat)
  Stdin : Option (List Nat)
  FlagKeepConn : Nat
  deriving DecidableEq

/-- `NewRequest(r)`: Role is always the Responder, the parameter map starts
empty, `FlagKeepConn` is 1; when the raw request is nil (`none`) Stdin
stays nil, otherwise Stdin is the request body. -/
def NewRequest (raw : Option (List Nat)) : Request :=
  let req : Request :=
    { Role := roleResponder
      Params := []
      Stdin := none
      FlagKeepConn := 1 }
  match raw with
  | none => req
  | some body => { req with Stdin := some body }

/-- `client.writeRequest` as the sequence of records it sends, each a
(record type, content) pair: the BeginRequest record, the Params records
(the buffered pair stream chunked at `maxWrite`, closed by an empty
record), and, when Stdin is non-nil, the Stdin records (the body is read
in pieces of at most 1024 bytes into a `maxWrite`-buffered writer, which
emits exactly the `maxWrite`-chunking of the whole body) closed by an
empty Stdin record. -/
def client.writeRequest (reqID : Nat) (req : Request) : List (Nat × List Nat) :=
  (typeBeginRequest, beginRequestBody req.Role req.FlagKeepConn)
    :: (((streamWriter.Write (writePairsBytes req.Params)).1.map
          (fun c => (typeParams, c))) ++ [(typeParams, [])])
    ++ (match req.Stdin with
        | none => []
        | some body =>
          ((streamWriter.Write body).1.map (fun c => (typeStdin, c))) ++
            [(typeStdin, [])])

/-! ## Claims C1-C4 -/

/-- C1: for every record type `t`, request id `i` and payload `b` with
`len(b) ≤ 65535`, `writeRecord(t, i, b)` emits the 8-byte big-endian header
(Version 1, Type `t`, ID `i`, ContentLength `len(b)`,
PaddingLength `(-len(b)) mod 8`, reserved 0), then the payload, then
PaddingLength padding bytes, and ContentLength + PaddingLength is
divisible by 8. -/
theorem writeRecord_frames_payload (t i : Nat) (b : List Nat)
    (ht : t < 256) (hi : i < 65536) (hb : b.length ≤ 65535) :
    conn.writeRecord t i b =
      [1, t, i / 256, i % 256, b.length / 256, b.length % 256,
        ((-(b.length : Int)) % 8).toNat, 0] ++ b ++
        List.replicate ((-(b.length : Int)) % 8).toNat 0 ∧
    (b.length + ((-(b.length : Int)) % 8).toNat) % 8 = 0 := by
  constructor
  · have hID1 : i / 256 % 256 = i / 256 := Nat.mod_eq_of_lt (by omega)
    have hL : b.length % 65536 = b.length := Nat.mod_eq_of_lt (by omega)
    have hL1 : b.length / 256 % 256 = b.length / 256 :=
      Nat.mod_eq_of_lt (by omega)
    have ht' : t % 256 = t := Nat.mod_eq_of_lt ht
    have hpadlt : ((-(b.length : Int)) % 8).toNat < 8 := by omega
    have hpadm : ((-(b.length : Int)) % 8).toNat % 256 =
        ((-(b.length : Int)) % 8).toNat := Nat.mod_eq_of_lt (by omega)
    have hmin : min ((-(b.length : Int)) % 8).toNat maxPad =
        ((-(b.length : Int)) % 8).toNat := by
      simp only [maxPad]
      omega
    simp [conn.writeRecord, header.init, headerBytes, pad,
      List.take_replicate, hID1, hL, hL1, ht', hpadm, hmin]
  · omega

/-- concrete check of C1 at `t = 5`, `i = 9`, `b = [1, 2, 3]`. -/
theorem writeRecord_frames_payload_witness :
    ((5 : Nat) < 256 ∧ (9 : Nat) < 65536 ∧
      ([1, 2, 3] : List Nat).length ≤ 65535) ∧
    ((3 : Nat) + ((-(3 : Int)) % 8).toNat) % 8 = 0 :=
  ⟨⟨by decide, by decide, by decide⟩,
    (writeRecord_frames_payload 5 9 [1, 2, 3]
      (by decide) (by decide) (by decide)).2⟩

/-- C2: `streamWriter.Write(p)` emits records of at most 65535 content
bytes each, in order, whose contents concatenate to exactly `p` (and no
records at all when `p` is empty), returning `len(p)`; `streamWriter.Close`
emits exactly one record, with empty payload, of the stream's type. -/
theorem streamWriter_frames_stream (t i : Nat) (p : List Nat)
    (ht : t < 256) (hi : i < 65536) :
    ((streamWriter.Write p).1.flatten = p ∧
     (streamWriter.Write p).2 = p.length ∧
     (∀ c ∈ (streamWriter.Write p).1, c.length ≤ 65535) ∧
     (p = [] → (streamWriter.Write p).1 = [])) ∧
    streamWriter.Close t i = [1, t, i / 256, i % 256, 0, 0, 0, 0] := by
  constructor
  · refine ⟨streamWriter.Write_join p, streamWriter.Write_count p, ?_, ?_⟩
    · intro c hc
      have := (streamWriter.Write_chunk_bounds p c hc).2
      simpa [maxWrite] using this
    · intro hnil
      subst hnil
      rw [streamWriter.Write_nil]
  · have ht' : t % 256 = t := Nat.mod_eq_of_lt ht
    have hID1 : i / 256 % 256 = i / 256 := Nat.mod_eq_of_lt (by omega)
    simp [streamWriter.Close, conn.writeRecord, header.init, headerBytes,
      pad, ht', hID1]

/-- concrete check of C2 at `t = 4`, `i = 1`, `p = [7, 7]`. -/
theorem streamWriter_frames_stream_witness :
    ((4 : Nat) < 256 ∧ (1 : Nat) < 65536) ∧
    streamWriter.Close 4 1 = [1, 4, 1 / 256, 1 % 256, 0, 0, 0, 0] :=
  ⟨⟨by decide, by decide⟩,
    (streamWriter_frames_stream 4 1 [7, 7] (by decide) (by decide)).2⟩

/-- C3: decoding the concatenated contents of the non-empty Params records
that `writePairs` emits (with `readSize`/`readString`, pair by pair) yields
exactly the original pair list, hence the original multiset of pairs. -/
theorem writePairs_decode_roundtrip (pairs : List (List Nat × List Nat))
    (h : ∀ kv ∈ pairs, kv.1.length < 2 ^ 31 ∧ kv.2.length < 2 ^ 31) :
    decodePairs
        (((writePairsRecords pairs).filter (fun c => !c.isEmpty)).flatten) =
      pairs := by
  have hchunks := streamWriter.Write_chunk_bounds (writePairsBytes pairs)
  have hfilter : (writePairsRecords pairs).filter (fun c => !c.isEmpty) =
      (streamWriter.Write (writePairsBytes pairs)).1 := by
    simp only [writePairsRecords, List.filter_append]
    have h2 : List.filter (fun c => !c.isEmpty) [([] : List Nat)] = [] := by
      simp
    rw [h2, List.append_nil]
    refine List.filter_eq_self.mpr ?_
    intro c hc
    have := (hchunks c hc).1
    simpa [List.isEmpty_iff] using this
  rw [hfilter, streamWriter.Write_join]
  exact decodePairs_writePairsBytes pairs h

/-- concrete check of C3 on the pair list `[([65], [66, 67])]`. -/
theorem writePairs_decode_roundtrip_witness :
    (∀ kv ∈ ([([65], [66, 67])] : List (List Nat × List Nat)),
      kv.1.length < 2 ^ 31 ∧ kv.2.length < 2 ^ 31) ∧
    decodePairs
        (((writePairsRecords [([65], [66, 67])]).filter
          (fun c => !c.isEmpty)).flatten) =
      [([65], [66, 67])] :=
  ⟨by decide, writePairs_decode_roundtrip [([65], [66, 67])] (by decide)⟩

/-- C4: for `size ≤ 2^31 - 1`, `encodeSize` writes one byte with clear high
bit when `size ≤ 127`, otherwise four big-endian bytes whose first has the
high bit set, returning the byte count, and `readSize` on the encoded
bytes returns `(size, count)`. -/
theorem encodeSize_readSize_inverse (size : Nat) (h : size ≤ 2 ^ 31 - 1) :
    (size ≤ 127 → encodeSize size = ([size], 1) ∧ size < 128) ∧
    (127 < size →
      (encodeSize size).2 = 4 ∧ (encodeSize size).1.length = 4 ∧
      128 ≤ (encodeSize size).1.headD 0) ∧
    readSize (encodeSize size).1 = (size, (encodeSize size).2) := by
  have hlt : size < 2 ^ 31 := by omega
  refine ⟨?_, ?_, ?_⟩
  · intro hs
    have : ¬ 127 < size := by omega
    exact ⟨by simp [encodeSize, this], by omega⟩
  · intro hs
    have hm : size % 2 ^ 31 = size := Nat.mod_eq_of_lt hlt
    refine ⟨by simp [encodeSize, hs], by simp [encodeSize, hs, putUint32BE], ?_⟩
    simp only [encodeSize, if_pos hs, hm, putUint32BE, List.headD_cons]
    omega
  · have := readSize_encode size hlt []
    simpa using this

/-- concrete check of C4 at `size = 300`. -/
theorem encodeSize_readSize_inverse_witness :
    ((300 : Nat) ≤ 2 ^ 31 - 1) ∧
    readSize (encodeSize 300).1 = (300, (encodeSize 300).2) :=
  ⟨by norm_num, (encodeSize_readSize_inverse 300 (by norm_num)).2.2⟩

/-! ## CGI response header parsing (ResponsePipe.writeResponse)

The stdout stream is modelled as the list of lines the buffered
`ReadLine` yields (line terminators stripped); a line that does not fit
the 1024-byte `bufio.Reader` comes back with `isPrefix` set, modelled by
the length test on the popped line.  Strings are modelled as `List Char`.
-/

/-- Go `unicode.IsSpace` restricted to the Latin-1 range actually produced
by CGI header lines: space, tab, newline, vertical tab, form feed,
carriage return, NEL (133) and NBSP (160). -/
def isSpaceChar (c : Char) : Bool :=
  c == ' ' || c == '\t' || c == '\n' || c == Char.ofNat 11 ||
    c == Char.ofNat 12 || c == '\r' || c == Char.ofNat 133 ||
    c == Char.ofNat 160

/-- `strings.TrimSpace`: strip leading and trailing whitespace. -/
def trimSpace (s : List Char) : List Char :=
  ((s.dropWhile isSpaceChar).reverse.dropWhile isSpaceChar).reverse

/-- `strings.SplitN(line, ":", 2)`: split at the first colon; `none` when
the line has no colon (the Go call then returns a single part, which the
caller rejects as a bogus header line). -/
def splitColon2 : List Char → Option (List Char × List Char)
  | [] => none
  | c :: rest =>
    if c == ':' then some ([], rest)
    else
      match splitColon2 rest with
      | none => none
      | some p => some (c :: p.1, p.2)

/-- decimal value of a digit run. -/
def digitsToNat (s : List Char) : Nat :=
  s.foldl (fun acc c => acc * 10 + (c.toNat - 48)) 0

/-- `strconv.Atoi`: an optional sign followed by at least one digit, all
digits; anything else is an error (`none`).  The 3-character slices fed to
it here cannot overflow. -/
def atoi (s : List Char) : Option Int :=
  match s with
  | [] => none
  | '+' :: ds =>
    if ds ≠ [] ∧ ds.all Char.isDigit then some (digitsToNat ds : Int)
    else none
  | '-' :: ds =>
    if ds ≠ [] ∧ ds.all Char.isDigit then some (-(digitsToNat ds : Int))
    else none
  | _ =>
    if s.all Char.isDigit then some (digitsToNat s : Int) else none

/-- `validHeaderFieldByte` of net/textproto: letters, digits and the token
characters (listed by code point to keep the source byte set exact). -/
def validHeaderFieldChar (c : Char) : Bool :=
  c.isAlpha || c.isDigit ||
    [33, 35, 36, 37, 38, 39, 42, 43, 45, 46, 94, 95, 96, 124, 126].contains
      c.toNat

/-- the canonicalization loop of `textproto.CanonicalMIMEHeaderKey`:
uppercase the first letter and every letter following a hyphen, lowercase
the rest (ASCII only, exactly as the Go byte arithmetic does). -/
def canonLoop : Bool → List Char → List Char
  | _, [] => []
  | upper, c :: rest =>
    let c2 := if upper then c.toUpper else c.toLower
    c2 :: canonLoop (c2 == '-') rest

/-- `textproto.CanonicalMIMEHeaderKey`: keys containing an invalid header
byte are returned unchanged, otherwise they are canonicalized. -/
def canonicalMIMEHeaderKey (s : List Char) : List Char :=
  if s.all validHeaderFieldChar then canonLoop true s else s

/-- `http.Header` modelled as an association list in `Add` order; `Add`
stores under the canonical key. -/
def headerAdd (hs : List (List Char × List Char)) (key value : List Char) :
    List (List Char × List Char) :=
  hs ++ [(canonicalMIMEHeaderKey key, value)]

/-- `http.Header.Get`: first value stored under the canonical key, or the
empty string. -/
def headerGet (hs : List (List Char × List Char)) (key : List Char) :
    List Char :=
  match hs.find? (fun kv => kv.1 == canonicalMIMEHeaderKey key) with
  | some kv => kv.2
  | none => []

/-- outcome of the header-reading loop of `writeResponse`. -/
inductive HeaderScan where
  | blankEnd (hs : List (List Char × List Char)) (sc : Int) (hl : Nat)
      (body : List (List Char))
  | eofEnd (hs : List (List Char × List Char)) (sc : Int) (hl : Nat)
  | errLong
  | errBogusLine (l : List Char)
  | errStatusShort (v : List Char)
  | errStatusParse (v : List Char)
  deriving DecidableEq

/-- the header-reading loop of `writeResponse`: pop lines until EOF or a
blank line, rejecting over-long lines (`isPrefix`) and colon-free lines,
recording `Status:` in the status accumulator and every other header in
the header map, counting header lines. -/
def headerLoop : List (List Char) → List (List Char × List Char) → Int →
    Nat → HeaderScan
  | [], hs, sc, hl => .eofEnd hs sc hl
  | l :: rest, hs, sc, hl =>
    if 1024 ≤ l.length then .errLong
    else if l = [] then .blankEnd hs sc hl rest
    else
      match splitColon2 l with
      | none => .errBogusLine l
      | some parts =>
        let name := trimSpace parts.1
        let v := trimSpace parts.2
        if name = "Status".toList then
          if v.length < 3 then .errStatusShort v
          else
            match atoi (v.take 3) with
            | none => .errStatusParse v
            | some code => headerLoop rest hs code (hl + 1)
        else headerLoop rest (headerAdd hs name v) sc (hl + 1)

/-- recorder model of an `http.ResponseWriter`: the first `WriteHeader`
call wins (net/http ignores superfluous calls), the response headers, and
the body lines copied after the headers. -/
structure RW where
  status : Option Int
  headersOut : List (List Char × List Char)
  body : List (List Char)
  deriving DecidableEq

/-- the zero recorder. -/
def RW.empty : RW := ⟨none, [], []⟩

/-- `WriteHeader`: records the status code only if none was sent yet. -/
def writeHeaderRW (w : RW) (code : Int) : RW :=
  match w.status with
  | some _ => w
  | none => { w with status := some code }

/-- `ResponsePipe.writeResponse`: run the header loop, then apply the
status-selection and error rules of the source; returns the recorder and
the error returned to `WriteTo`.  Error messages follow the source (the
formatted suffix carries the offending text). -/
def writeResponse (w : RW) (lines : List (List Char)) : RW × Option String :=
  match headerLoop lines [] 0 0 with
  | .errLong =>
    (writeHeaderRW w 500, some "long header line from subprocess")
  | .errBogusLine l =>
    (w, some ("bogus header line: " ++ String.mk l))
  | .errStatusShort v =>
    (w, some ("bogus status (short): " ++ String.mk v))
  | .errStatusParse v =>
    (w, some ("bogus status: " ++ String.mk v))
  | .eofEnd _ _ _ =>
    (writeHeaderRW w 500, some "no headers")
  | .blankEnd hs sc hl body =>
    if hl = 0 then (writeHeaderRW w 500, some "no headers")
    else
      let sc1 := if headerGet hs ("Location".toList) ≠ [] ∧ sc = 0
        then 302 else sc
      if sc1 = 0 ∧ headerGet hs ("Content-Type".toList) = [] then
        (writeHeaderRW w 500, some "missing required Content-Type in headers")
      else
        let scF := if sc1 = 0 then 200 else sc1
        ({ writeHeaderRW { w with headersOut := w.headersOut ++ hs } scF with
            body := body }, none)

/-- the handler bridge around `WriteTo` (defaultHandler.ServeHTTP): the
stderr copy cannot fail in this pure model, so `WriteTo` returns
`writeResponse`'s error; on an error the handler calls
`http.Error(w, "failed to write stream", 500)`, whose `WriteHeader(500)`
only takes effect when no header was flushed yet. -/
def ServeHTTPWrite (lines : List (List Char)) : RW :=
  match h : writeResponse RW.empty lines with
  | (w1, some _) => writeHeaderRW w1 500
  | (w1, none) => w1

/-- the (trimmed) header name of a line, empty for colon-free lines. -/
def lineName (l : List Char) : List Char :=
  match splitColon2 l with
  | some parts => trimSpace parts.1
  | none => []

/-- the (trimmed) header value of a line. -/
def lineVal (l : List Char) : List Char :=
  match splitColon2 l with
  | some parts => trimSpace parts.2
  | none => []

/-- a header line the loop accepts and processes: non-blank, fits the
1024-byte line buffer, contains a colon, and, when it is a `Status:` line,
carries a value of at least 3 characters whose first 3 characters parse as
an integer. -/
def GoodLine (l : List Char) : Prop :=
  l ≠ [] ∧ l.length < 1024 ∧ (splitColon2 l).isSome ∧
    (lineName l = "Status".toList →
      3 ≤ (lineVal l).length ∧ (atoi ((lineVal l).take 3)).isSome)

instance (l : List Char) : Decidable (GoodLine l) := by
  unfold GoodLine
  infer_instance

/-- the header map accumulated over a run of good lines (`Status:` lines
are captured separately, every other line is `Add`ed under its canonical
key). -/
def parsedHeaders (hdr : List (List Char)) : List (List Char × List Char) :=
  hdr.filterMap (fun l =>
    if lineName l = "Status".toList then none
    else some (canonicalMIMEHeaderKey (lineName l), lineVal l))

/-- the status accumulator over a run of good lines: the last `Status:`
line wins, starting from `sc`. -/
def statusFoldFrom (sc : Int) (hdr : List (List Char)) : Int :=
  hdr.foldl (fun acc l =>
    if lineName l = "Status".toList then (atoi ((lineVal l).take 3)).getD 0
    else acc) sc

lemma parsedHeaders_nil : parsedHeaders [] = [] := rfl

lemma statusFoldFrom_nil (sc : Int) : statusFoldFrom sc [] = sc := rfl

/-- processing a run of good lines neither stops nor fails: it accumulates
their headers and status and moves on. -/
lemma headerLoop_good_run :
    ∀ hdr : List (List Char), (∀ l ∈ hdr, GoodLine l) →
      ∀ rest hs sc hl,
        headerLoop (hdr ++ rest) hs sc hl =
          headerLoop rest (hs ++ parsedHeaders hdr) (statusFoldFrom sc hdr)
            (hl + hdr.length) := by
  intro hdr
  induction hdr with
  | nil =>
    intro _ rest hs sc hl
    simp [parsedHeaders, statusFoldFrom]
  | cons l t ih =>
    intro hg rest hs sc hl
    obtain ⟨hne, hlen, hsp, hstat⟩ := hg l (List.mem_cons_self l t)
    obtain ⟨parts, hparts⟩ := Option.isSome_iff_exists.mp hsp
    have hln : lineName l = trimSpace parts.1 := by
      simp [lineName, hparts]
    have hlv : lineVal l = trimSpace parts.2 := by
      simp [lineVal, hparts]
    have hgt : ∀ x ∈ t, GoodLine x :=
      fun x hx => hg x (List.mem_cons_of_mem l hx)
    simp only [List.cons_append, headerLoop, List.append_eq]
    rw [if_neg (by omega), if_neg hne]
    simp only [hparts]
    by_cases hname : trimSpace parts.1 = "Status".toList
    · have hln' : lineName l = "Status".toList := by rw [hln, hname]
      obtain ⟨hvlen, hvatoi⟩ := hstat hln'
      obtain ⟨code, hcode⟩ := Option.isSome_iff_exists.mp hvatoi
      have hcode2 : atoi (List.take 3 (trimSpace parts.2)) = some code := by
        rw [← hlv]
        exact hcode
      have hvlen2 : 3 ≤ (trimSpace parts.2).length := by
        rw [← hlv]
        exact hvlen
      rw [if_pos hname,
        if_neg (by omega : ¬ (trimSpace parts.2).length < 3)]
      simp only [hcode2]
      rw [ih hgt rest hs code (hl + 1)]
      have e1 : parsedHeaders (l :: t) = parsedHeaders t := by
        simp [parsedHeaders, hln']
      have e2 : statusFoldFrom sc (l :: t) = statusFoldFrom code t := by
        simp only [statusFoldFrom, List.foldl_cons]
        rw [if_pos hln', hcode]
        simp
      have e3 : hl + (l :: t).length = hl + 1 + t.length := by
        simp [List.length_cons]
        omega
      rw [e1, e2, e3]
    · rw [if_neg hname]
      rw [ih hgt rest (headerAdd hs (trimSpace parts.1) (trimSpace parts.2))
        sc (hl + 1)]
      have hln' : ¬ lineName l = "Status".toList := by rw [hln]; exact hname
      have e1 : hs ++ parsedHeaders (l :: t) =
          headerAdd hs (trimSpace parts.1) (trimSpace parts.2) ++
            parsedHeaders t := by
        simp only [parsedHeaders, List.filterMap_cons, hln, hlv,
          if_neg hname, headerAdd]
        simp [List.append_assoc]
      have e2 : statusFoldFrom sc (l :: t) = statusFoldFrom sc t := by
        simp only [statusFoldFrom, List.foldl_cons]
        rw [if_neg hln']
      have e3 : hl + (l :: t).length = hl + 1 + t.length := by
        simp [List.length_cons]
        omega
      rw [e1, e2, e3]

/-- a good header block ending in a blank line reaches the blank-line exit
with its headers, its status fold and its line count. -/
lemma headerLoop_blank (hdr body : List (List Char))
    (hg : ∀ l ∈ hdr, GoodLine l) :
    headerLoop (hdr ++ [] :: body) [] 0 0 =
      .blankEnd (parsedHeaders hdr) (statusFoldFrom 0 hdr) hdr.length body := by
  rw [headerLoop_good_run hdr hg ([] :: body) [] 0 0]
  simp [headerLoop]

/-- a good header block that ends at EOF without a blank line reaches the
EOF exit. -/
lemma headerLoop_eof (hdr : List (List Char))
    (hg : ∀ l ∈ hdr, GoodLine l) :
    headerLoop hdr [] 0 0 =
      .eofEnd (parsedHeaders hdr) (statusFoldFrom 0 hdr) hdr.length := by
  have h := headerLoop_good_run hdr hg [] [] 0 0
  rw [List.append_nil] at h
  rw [h]
  simp [headerLoop]

/-- result of `writeResponse` on a good header block terminated by a blank
line, before the final status selection is resolved. -/
lemma writeResponse_blank_result (hdr body : List (List Char))
    (hg : ∀ l ∈ hdr, GoodLine l) (hne : hdr ≠ []) :
    writeResponse RW.empty (hdr ++ [] :: body) =
      (if (if headerGet (parsedHeaders hdr) ("Location".toList) ≠ [] ∧
              statusFoldFrom 0 hdr = 0 then 302 else statusFoldFrom 0 hdr) = 0 ∧
          headerGet (parsedHeaders hdr) ("Content-Type".toList) = [] then
        (writeHeaderRW RW.empty 500,
          some "missing required Content-Type in headers")
      else
        ({ writeHeaderRW
            { RW.empty with
                headersOut := RW.empty.headersOut ++ parsedHeaders hdr }
            (if (if headerGet (parsedHeaders hdr) ("Location".toList) ≠ [] ∧
                    statusFoldFrom 0 hdr = 0 then 302
                  else statusFoldFrom 0 hdr) = 0 then 200
              else
                (if headerGet (parsedHeaders hdr) ("Location".toList) ≠ [] ∧
                    statusFoldFrom 0 hdr = 0 then 302
                  else statusFoldFrom 0 hdr)) with
            body := body }, none)) := by
  have hb := headerLoop_blank hdr body hg
  have hl0 : ¬ hdr.length = 0 := by
    simpa [List.length_eq_zero] using hne
  simp only [writeResponse, hb]
  rw [if_neg hl0]

/-! ## Claim C5 -/

/-- C5 (amended): for a stdout stream whose well-formed header block is
terminated by a blank line and contains at least one header line, the
status `writeResponse` selects is: the integer parsed from the first 3
characters of the (last) `Status:` value when that integer is nonzero
(a zero parse leaves the status unset and falls through); otherwise 302
when a non-empty `Location:` value is found; otherwise a fatal
"missing required Content-Type" with 500 when no `Content-Type:` value is
found; otherwise 200.  A `Status:` value shorter than 3 characters or
with a non-numeric prefix is a fatal error (second conjunct). -/
theorem writeResponse_status_selection :
    (∀ hdr body : List (List Char), hdr ≠ [] → (∀ l ∈ hdr, GoodLine l) →
      ((statusFoldFrom 0 hdr ≠ 0 →
          (writeResponse RW.empty (hdr ++ [] :: body)).1.status =
              some (statusFoldFrom 0 hdr) ∧
            (writeResponse RW.empty (hdr ++ [] :: body)).2 = none) ∧
       (statusFoldFrom 0 hdr = 0 →
          headerGet (parsedHeaders hdr) ("Location".toList) ≠ [] →
          (writeResponse RW.empty (hdr ++ [] :: body)).1.status = some 302 ∧
            (writeResponse RW.empty (hdr ++ [] :: body)).2 = none) ∧
       (statusFoldFrom 0 hdr = 0 →
          headerGet (parsedHeaders hdr) ("Location".toList) = [] →
          headerGet (parsedHeaders hdr) ("Content-Type".toList) = [] →
          (writeResponse RW.empty (hdr ++ [] :: body)).1.status = some 500 ∧
            (writeResponse RW.empty (hdr ++ [] :: body)).2 =
              some "missing required Content-Type in headers") ∧
       (statusFoldFrom 0 hdr = 0 →
          headerGet (parsedHeaders hdr) ("Location".toList) = [] →
          headerGet (parsedHeaders hdr) ("Content-Type".toList) ≠ [] →
          (writeResponse RW.empty (hdr ++ [] :: body)).1.status = some 200 ∧
            (writeResponse RW.empty (hdr ++ [] :: body)).2 = none))) ∧
    (∀ pre rest : List (List Char), ∀ sl : List Char,
      (∀ l ∈ pre, GoodLine l) →
      sl ≠ [] → sl.length < 1024 → (splitColon2 sl).isSome →
      lineName sl = "Status".toList →
      ((lineVal sl).length < 3 ∨ atoi ((lineVal sl).take 3) = none) →
      (writeResponse RW.empty (pre ++ sl :: rest)).2.isSome ∧
        (writeResponse RW.empty (pre ++ sl :: rest)).1.status = none) := by
  constructor
  · intro hdr body hne hg
    have hres := writeResponse_blank_result hdr body hg hne
    refine ⟨?_, ?_, ?_, ?_⟩
    · intro hS
      rw [hres]
      rw [if_neg (fun hcon => hS hcon.2 : ¬ (headerGet (parsedHeaders hdr)
          ("Location".toList) ≠ [] ∧ statusFoldFrom 0 hdr = 0))]
      rw [if_neg (fun hcon => hS hcon.1 : ¬ (statusFoldFrom 0 hdr = 0 ∧
          headerGet (parsedHeaders hdr) ("Content-Type".toList) = []))]
      rw [if_neg hS]
      simp [writeHeaderRW, RW.empty]
    · intro hS hLoc
      rw [hres]
      rw [if_pos (⟨hLoc, hS⟩ : headerGet (parsedHeaders hdr)
          ("Location".toList) ≠ [] ∧ statusFoldFrom 0 hdr = 0)]
      rw [if_neg (by norm_num : ¬ ((302 : Int) = 0 ∧
          headerGet (parsedHeaders hdr) ("Content-Type".toList) = []))]
      rw [if_neg (by norm_num : ¬ (302 : Int) = 0)]
      simp [writeHeaderRW, RW.empty]
    · intro hS hLoc hCT
      rw [hres]
      rw [if_neg (fun hcon => hcon.1 hLoc : ¬ (headerGet (parsedHeaders hdr)
          ("Location".toList) ≠ [] ∧ statusFoldFrom 0 hdr = 0))]
      rw [if_pos (⟨hS, hCT⟩ : statusFoldFrom 0 hdr = 0 ∧
          headerGet (parsedHeaders hdr) ("Content-Type".toList) = [])]
      simp [writeHeaderRW, RW.empty]
    · intro hS hLoc hCT
      rw [hres]
      rw [if_neg (fun hcon => hcon.1 hLoc : ¬ (headerGet (parsedHeaders hdr)
          ("Location".toList) ≠ [] ∧ statusFoldFrom 0 hdr = 0))]
      rw [if_neg (fun hcon => hCT hcon.2 : ¬ (statusFoldFrom 0 hdr = 0 ∧
          headerGet (parsedHeaders hdr) ("Content-Type".toList) = []))]
      rw [if_pos hS]
      simp [writeHeaderRW, RW.empty]
  · intro pre rest sl hg hne hlen hsp hname hbad
    obtain ⟨parts, hparts⟩ := Option.isSome_iff_exists.mp hsp
    have hln : lineName sl = trimSpace parts.1 := by
      simp [lineName, hparts]
    have hlv : lineVal sl = trimSpace parts.2 := by
      simp [lineVal, hparts]
    have hname' : trimSpace parts.1 = "Status".toList := by
      rw [← hln]
      exact hname
    have hpre := headerLoop_good_run pre hg (sl :: rest) [] 0 0
    have hstep : headerLoop (pre ++ sl :: rest) [] 0 0 =
        (if (trimSpace parts.2).length < 3 then
          HeaderScan.errStatusShort (trimSpace parts.2)
        else
          match atoi (List.take 3 (trimSpace parts.2)) with
          | none => HeaderScan.errStatusParse (trimSpace parts.2)
          | some code =>
            headerLoop rest (([] : List (List Char × List Char)) ++
              parsedHeaders pre) code (0 + pre.length + 1)) := by
      rw [hpre]
      simp only [headerLoop, List.append_eq]
      rw [if_neg (by omega), if_neg hne]
      simp only [hparts]
      rw [if_pos hname']
    by_cases h3 : (trimSpace parts.2).length < 3
    · rw [if_pos h3] at hstep
      simp [writeResponse, hstep, RW.empty]
    · rw [if_neg h3] at hstep
      have hat : atoi (List.take 3 (trimSpace parts.2)) = none := by
        rcases hbad with hb1 | hb2
        · rw [hlv] at hb1
          omega
        · rw [← hlv]
          exact hb2
      rw [hat] at hstep
      simp [writeResponse, hstep, RW.empty]

/-- C5 counterexample: on the stdout stream
`Status: 000` / `Content-Type: text/plain` / blank line, the claim's rule
("the status is the base-10 integer formed by the first 3 characters of
the Status value", here 0) disagrees with the code, which treats the
parsed 0 as "no status seen" and falls through to the 200 default. -/
theorem writeResponse_status000_counterexample :
    (writeResponse RW.empty
        ["Status: 000".toList, "Content-Type: text/plain".toList, []]).1.status =
      some 200 ∧ ((200 : Int) ≠ 0) := by
  constructor
  · decide
  · decide

/-- concrete check of C5 (amended) on a block with a lone Content-Type
header: the selected status is 200. -/
theorem writeResponse_status_selection_witness :
    (["Content-Type: text/html".toList] : List (List Char)) ≠ [] ∧
    (writeResponse RW.empty
        (["Content-Type: text/html".toList] ++ [] :: [])).1.status =
      some 200 :=
  ⟨by decide,
    ((writeResponse_status_selection.1 ["Content-Type: text/html".toList] []
        (by decide) (by decide)).2.2.2 (by decide) (by decide)
        (by decide)).1⟩

/-! ## Claim C6 -/

/-- every error `writeResponse` can return leaves the recorder either
untouched (no header flushed) or holding the 500 it wrote itself. -/
lemma writeResponse_error_status (lines : List (List Char)) :
    (writeResponse RW.empty lines).2.isSome →
    (writeResponse RW.empty lines).1.status = none ∨
      (writeResponse RW.empty lines).1.status = some 500 := by
  intro h
  cases hscan : headerLoop lines [] 0 0 with
  | blankEnd hs sc hl body =>
    simp only [writeResponse, hscan] at h ⊢
    by_cases h0 : hl = 0
    · rw [if_pos h0]
      simp [writeHeaderRW, RW.empty]
    · rw [if_neg h0] at h ⊢
      by_cases hc : (if headerGet hs ("Location".toList) ≠ [] ∧ sc = 0
            then 302 else sc) = 0 ∧
          headerGet hs ("Content-Type".toList) = []
      · rw [if_pos hc]
        simp [writeHeaderRW, RW.empty]
      · rw [if_neg hc] at h
        simp at h
  | eofEnd hs sc hl =>
    simp [writeResponse, hscan, writeHeaderRW, RW.empty]
  | errLong =>
    simp [writeResponse, hscan, writeHeaderRW, RW.empty]
  | errBogusLine l =>
    simp [writeResponse, hscan, RW.empty]
  | errStatusShort v =>
    simp [writeResponse, hscan, RW.empty]
  | errStatusParse v =>
    simp [writeResponse, hscan, RW.empty]

/-- C6: on a malformed CGI header block — a non-empty header line with no
colon after any run of good lines, a block whose first line is already
blank (zero header lines), or a good block never terminated by a blank
line — `WriteTo` (whose error is `writeResponse`'s) returns an error, and
whenever `writeResponse` errors the bridge ends up with HTTP status 500 on
the response writer (written by `writeResponse` itself or by the handler's
`http.Error` fallback). -/
theorem malformed_headers_yield_500 :
    (∀ lines : List (List Char), (writeResponse RW.empty lines).2.isSome →
      (ServeHTTPWrite lines).status = some 500) ∧
    (∀ pre rest : List (List Char), ∀ l : List Char,
      (∀ x ∈ pre, GoodLine x) → l ≠ [] → l.length < 1024 →
      splitColon2 l = none →
      (writeResponse RW.empty (pre ++ l :: rest)).2.isSome) ∧
    (∀ body : List (List Char),
      (writeResponse RW.empty ([] :: body)).2 = some "no headers") ∧
    (∀ hdr : List (List Char), (∀ x ∈ hdr, GoodLine x) →
      (writeResponse RW.empty hdr).2 = some "no headers") := by
  refine ⟨?_, ?_, ?_, ?_⟩
  · intro lines h
    have hws := writeResponse_error_status lines h
    unfold ServeHTTPWrite
    split
    · next w1 e heq =>
        rw [heq] at hws
        rcases hws with h1 | h1 <;> simp only at h1 <;>
          simp [writeHeaderRW, h1]
    · next w1 heq =>
        rw [heq] at h
        simp at h
  · intro pre rest l hg hne hlen hsp
    have hpre := headerLoop_good_run pre hg (l :: rest) [] 0 0
    have hstep : headerLoop (pre ++ l :: rest) [] 0 0 =
        .errBogusLine l := by
      rw [hpre]
      simp only [headerLoop]
      rw [if_neg (by omega), if_neg hne]
      simp only [hsp]
    simp [writeResponse, hstep]
  · intro body
    have hstep : headerLoop ([] :: body) [] 0 0 = .blankEnd [] 0 0 body := by
      simp [headerLoop]
    simp [writeResponse, hstep]
  · intro hdr hg
    have hstep := headerLoop_eof hdr hg
    simp [writeResponse, hstep]

/-- concrete check of C6: a colon-free line errors and the bridge status
is 500; a leading blank line and an unterminated block error with
"no headers". -/
theorem malformed_headers_yield_500_witness :
    (writeResponse RW.empty
        (([] : List (List Char)) ++ "noColon".toList :: [])).2.isSome ∧
    (ServeHTTPWrite
        (([] : List (List Char)) ++ "noColon".toList :: [])).status =
      some 500 ∧
    (writeResponse RW.empty ([] :: [])).2 = some "no headers" ∧
    (writeResponse RW.empty ["A: b".toList]).2 = some "no headers" := by
  have h2 := malformed_headers_yield_500.2.1 [] [] "noColon".toList
    (by decide) (by decide) (by decide) (by decide)
  exact ⟨h2, malformed_headers_yield_500.1 _ h2,
    malformed_headers_yield_500.2.2.1 [],
    malformed_headers_yield_500.2.2.2 ["A: b".toList] (by decide)⟩

/-! ## Claim C8 -/

/-- C8 (amended): for a minimal GET built by `NewRequest` (non-nil raw
request, empty body) with a non-empty params map, `writeRequest` sends
exactly: one BeginRequest record with role 1 and flags 1 (`NewRequest`
sets `FlagKeepConn = 1`, not 0), the Params records carrying the encoded
pairs (non-empty, at most 65535 bytes each, concatenating to the pair
encoding), one empty Params record, and one empty Stdin record. -/
theorem writeRequest_wire (id : Nat) (ps : List (List Nat × List Nat))
    (hps : ps ≠ []) :
    client.writeRequest id { NewRequest (some []) with Params := ps } =
      (typeBeginRequest, [0, 1, 1, 0, 0, 0, 0, 0])
        :: (((streamWriter.Write (writePairsBytes ps)).1.map
              (fun c => (typeParams, c))) ++ [(typeParams, [])])
        ++ [(typeStdin, [])] ∧
    (streamWriter.Write (writePairsBytes ps)).1 ≠ [] ∧
    ((streamWriter.Write (writePairsBytes ps)).1).flatten =
      writePairsBytes ps ∧
    (∀ c ∈ (streamWriter.Write (writePairsBytes ps)).1,
      c ≠ [] ∧ c.length ≤ 65535) := by
  refine ⟨?_, ?_, streamWriter.Write_join _, ?_⟩
  · simp [client.writeRequest, NewRequest, beginRequestBody, roleResponder,
      streamWriter.Write_nil]
  · intro hchunks
    have hj := streamWriter.Write_join (writePairsBytes ps)
    rw [hchunks] at hj
    have hb : writePairsBytes ps ≠ [] := by
      cases ps with
      | nil => exact absurd rfl hps
      | cons kv t =>
        simp only [writePairsBytes, encPair, List.append_assoc]
        intro hcon
        rw [List.append_eq_nil] at hcon
        exact encodeSize_ne_nil kv.1.length hcon.1
    exact hb (by simpa using hj.symm)
  · intro c hc
    have := streamWriter.Write_chunk_bounds (writePairsBytes ps) c hc
    exact ⟨this.1, by simpa [maxWrite] using this.2⟩

/-- C8 counterexample: the BeginRequest record of the minimal GET carries
flags byte 1 (the third body byte), not 0 as the claim states. -/
theorem writeRequest_flags_counterexample :
    (client.writeRequest 1
        { NewRequest (some []) with Params := [([65], [66])] }).head? =
      some (typeBeginRequest, [0, 1, 1, 0, 0, 0, 0, 0]) ∧
    ([0, 1, 1, 0, 0, 0, 0, 0] : List Nat) ≠ [0, 1, 0, 0, 0, 0, 0, 0] := by
  constructor
  · rfl
  · decide

/-- concrete check of C8 (amended) on the one-pair map `[([65], [66])]`. -/
theorem writeRequest_wire_witness :
    ([([65], [66])] : List (List Nat × List Nat)) ≠ [] ∧
    ((streamWriter.Write (writePairsBytes [([65], [66])])).1).flatten =
      writePairsBytes [([65], [66])] :=
  ⟨by decide, (writeRequest_wire 1 [([65], [66])] (by decide)).2.2.1⟩

/-! ## Client pool: ClientPool.CreateClient (pool.go) -/

/-- the per-request client (Go struct `client`): the connection, or `none`
for a nil `*conn`; the factory and id pool play no role in the pool
claims. -/
structure client where
  conn : Option Nat
  deriving DecidableEq

/-- `client.NewConn`: run the conn factory (its outcome is the `dial`
argument); on error return it without installing a connection, otherwise
install the dialed connection. -/
def client.NewConn (c : client) (dial : Except String Nat) :
    client × Option String :=
  match dial with
  | Except.error e => (c, some e)
  | Except.ok rwc => ({ conn := some rwc }, none)

/-- `PoolClient` (pool.go): the embedded `Client` interface (`none` models
a nil interface) and the construction error captured by the stocker. -/
structure PoolClient where
  Client : Option client
  Err : Option String
  deriving DecidableEq

/-- the stocker body of `NewClientPool`: `c, err := clientFactory()` then
`&PoolClient{Client: c, Err: err, ...}`; the reference factories return
a nil Client exactly when they error. -/
def mkPoolClient (factoryResult : Except String client) : PoolClient :=
  match factoryResult with
  | Except.ok c => { Client := some c, Err := none }
  | Except.error e => { Client := none, Err := some e }

/-- `ClientPool.CreateClient`: take a PoolClient from stock, call
`pc.NewConn()` — whose returned error is discarded, and which is a method
call on the nil embedded Client (modelled `none`, a runtime panic) when
the factory had failed — then surface `pc.Err` if set, else return the
PoolClient. -/
def ClientPool.CreateClient (pc : PoolClient) (dial : Except String Nat) :
    Option (Except String PoolClient) :=
  match pc.Client with
  | none => none
  | some c =>
    let c2 := (client.NewConn c dial).1
    let pc2 : PoolClient := { pc with Client := some c2 }
    some (match pc2.Err with
          | some e => Except.error e
          | none => Except.ok pc2)

/-- C7: the dial failure inside `CreateClient` is NOT surfaced: for a
PoolClient stocked without error (as `SimpleClientFactoryNoConn` always
produces) whose `NewConn` dial fails, `CreateClient` ignores the `NewConn`
error and returns the client — still without a live connection — together
with a nil error, against both the spec's failure model and the claim. -/
theorem createClient_swallows_dial_error :
    ClientPool.CreateClient (mkPoolClient (Except.ok { conn := none }))
        (Except.error "connect: connection refused") =
      some (Except.ok { Client := some { conn := none }, Err := none }) :=
  rfl

/-- C10: `CreateClient` calls `NewConn` before inspecting `Err`, so a
PoolClient whose factory failed (nil embedded Client) panics (`none`)
before the error branch; the branch surfacing `Err` is reachable only
when the embedded Client is non-nil. -/
theorem createClient_nil_client_before_err :
    (∀ e : String, ∀ dial : Except String Nat,
      ClientPool.CreateClient (mkPoolClient (Except.error e)) dial = none) ∧
    (∀ pc : PoolClient, ∀ dial : Except String Nat,
      ∀ r : Except String PoolClient,
      ClientPool.CreateClient pc dial = some r → pc.Client ≠ none) ∧
    (∀ pc : PoolClient, ∀ dial : Except String Nat, ∀ e : String,
      ClientPool.CreateClient pc dial = some (Except.error e) →
        pc.Client ≠ none ∧ pc.Err = some e) := by
  refine ⟨?_, ?_, ?_⟩
  · intro e dial
    rfl
  · intro pc dial r h hnone
    rw [ClientPool.CreateClient, hnone] at h
    simp at h
  · intro pc dial e h
    cases hc : pc.Client with
    | none =>
      rw [ClientPool.CreateClient, hc] at h
      simp at h
    | some c =>
      refine ⟨by simp [hc], ?_⟩
      rw [ClientPool.CreateClient, hc] at h
      simp only at h
      cases he : pc.Err with
      | none =>
        rw [he] at h
        simp at h
      | some e2 =>
        rw [he] at h
        simp at h
        rw [h]

/-- concrete check of C10: a nil-Client PoolClient panics in CreateClient,
and the error branch fires for a non-nil Client carrying an Err. -/
theorem createClient_nil_client_before_err_witness :
    ClientPool.CreateClient (mkPoolClient (Except.error "dial failed"))
      (Except.ok 0) = none ∧
    (({ Client := some { conn := none }, Err := some "boom" } :
        PoolClient).Client ≠ none ∧
      ({ Client := some { conn := none }, Err := some "boom" } :
        PoolClient).Err = some "boom") :=
  ⟨createClient_nil_client_before_err.1 "dial failed" (Except.ok 0),
    createClient_nil_client_before_err.2.2
      { Client := some { conn := none }, Err := some "boom" }
      (Except.ok 0) "boom" rfl⟩

/-! ## Claim C9: the sequential prefix of client.Do

`client.Do` allocates a request id, builds a ResponsePipe, and — only when
a connection exists — spawns the writer, reader and supervisor tasks; the
supervisor alone releases the request id and closes the pipe when both
tasks finish.  The model records the actions the sequential prefix
performs before `Do` returns, plus the supervisor's completion actions. -/

/-- the observable actions of `client.Do` and its supervisor. -/
inductive DoStep where
  | allocID
  | newResponsePipe
  | spawnWriter
  | spawnReader
  | spawnSupervisor
  | releaseID
  | closePipe
  deriving DecidableEq

/-- `ResponsePipe` reduced to the open/closed state of its two writer
endpoints. -/
structure ResponsePipe where
  stdOutWriterOpen : Bool
  stdErrWriterOpen : Bool
  deriving DecidableEq

/-- `NewResponsePipe`: both writer endpoints open. -/
def NewResponsePipe : ResponsePipe :=
  { stdOutWriterOpen := true, stdErrWriterOpen := true }

/-- `ResponsePipe.Close`: closes both writer endpoints. -/
def ResponsePipe.Close (_ : ResponsePipe) : ResponsePipe :=
  { stdOutWriterOpen := false, stdErrWriterOpen := false }

/-- what `client.Do` hands back: the named-return ResponsePipe, the error,
and the actions performed before returning. -/
structure DoReturn where
  resp : Option ResponsePipe
  err : Option String
  steps : List DoStep
  deriving DecidableEq

/-- the sequential prefix of `client.Do`: allocate an id, build the pipe,
then either return `ConnectionClosed` at once (`c.conn == nil`) or spawn
the writer, reader and supervisor tasks and return no error. -/
def client.Do (connIsNil : Bool) : DoReturn :=
  if connIsNil then
    { resp := some NewResponsePipe
      err := some "client connection has been closed"
      steps := [DoStep.allocID, DoStep.newResponsePipe] }
  else
    { resp := some NewResponsePipe
      err := none
      steps := [DoStep.allocID, DoStep.newResponsePipe, DoStep.spawnWriter,
        DoStep.spawnReader, DoStep.spawnSupervisor] }

/-- the supervisor's completion actions (`c.idPool.Release(reqID)` then
`resp.Close()`), run only when the supervisor task was spawned. -/
def supervisorFinalSteps : List DoStep :=
  [DoStep.releaseID, DoStep.closePipe]

/-- C9: `Do` on a client with a nil connection allocates an id and builds
the ResponsePipe first, then returns the ConnectionClosed error together
with that non-nil pipe whose writers are still open, without spawning the
supervisor — so the id is never released and the pipe never closed on this
path, unlike the spawned supervisor's completion path, which releases the
id and closes the pipe. -/
theorem do_nil_conn_leaks_id :
    client.Do true =
      { resp := some { stdOutWriterOpen := true, stdErrWriterOpen := true }
        err := some "client connection has been closed"
        steps := [DoStep.allocID, DoStep.newResponsePipe] } ∧
    DoStep.releaseID ∉ (client.Do true).steps ∧
    DoStep.closePipe ∉ (client.Do true).steps ∧
    DoStep.spawnSupervisor ∉ (client.Do true).steps ∧
    DoStep.allocID ∈ (client.Do true).steps ∧
    (DoStep.spawnSupervisor ∈ (client.Do false).steps ∧
      DoStep.releaseID ∈ supervisorFinalSteps ∧
      DoStep.closePipe ∈ supervisorFinalSteps) := by
  decide
